import Mathlib

/-!
Shallow embedding of the license-key server (src/server.py) of
marylinagency/licence_manager, restricted to the key lifecycle, the
admin-guard logic and the batch key-generation path.

Modelling conventions:
- Timestamps are abstract `Nat` instants; `timedelta(days = d)` added to an
  instant becomes `now + d` (the unit is irrelevant to every property here).
- SQL `NULL` becomes `Option`; SQL rows become structures; each table is the
  list of its rows, in insertion order (sqlite appends new rows at the end,
  and every `fetchone` of the source takes the first row matching the WHERE
  clause, which `List.find?` mirrors).
- The cryptographically random key generator (`generate_key`) is abstracted
  as a caller-supplied candidate oracle `gen : Nat → String`, giving the
  string produced for each loop index of
  `keys = [generate_key(prefix) for _ in range(count)]`.
- sqlite connection failures (`sqlite3.Error` branches) are out of scope,
  as is password hashing: the stored digest is an opaque string.
-/

/-- A row of the `activation_keys` table (CREATE TABLE in `init_db`).
Column defaults: `is_active` 1, `is_banned` 0, the nullable columns NULL. -/
structure KeyRow where
  keyValue : String
  keyType : String
  createdAt : Nat
  isActive : Bool
  isBanned : Bool
  activationDate : Option Nat
  hwid : Option String
  machineId : Option String
  expiryDate : Option Nat
  email : Option String
  notes : Option String
  customerName : Option String
  productName : Option String
deriving Repr, DecidableEq

/-- A row of the `key_types` table; `price` holds the REAL price in cents
(9.99 becomes 999) to keep the embedding in exact arithmetic. -/
structure KeyTypeRow where
  name : String
  durationDays : Nat
  description : Option String
  price : Option Nat
  isAvailable : Bool
deriving Repr, DecidableEq

/-- A row of the `admin_users` table. -/
structure AdminRow where
  username : String
  passwordHash : String
  apiKey : Option String
  isSuperadmin : Bool
  createdAt : Nat
  lastLogin : Option Nat
deriving Repr, DecidableEq

/-- The persistent store: the three tables the modelled operations touch. -/
structure Store where
  keys : List KeyRow
  keyTypes : List KeyTypeRow
  admins : List AdminRow
deriving Repr, DecidableEq

/-- `SELECT ... FROM activation_keys WHERE key_value = ?` followed by
`fetchone()`: the first row whose `key_value` matches. -/
def findKey (s : Store) (kv : String) : Option KeyRow :=
  s.keys.find? fun r => r.keyValue == kv

/-- Whether some row of `activation_keys` has the given `key_value`
(the sqlite UNIQUE constraint consults exactly this). -/
def hasKey (s : Store) (kv : String) : Bool :=
  s.keys.any fun r => r.keyValue == kv

/-- `calculate_expiry_date`: look `key_type` up in the `key_types` catalog;
on a hit, `datetime.now() + timedelta(days = duration_days)`, else NULL. -/
def calculate_expiry_date (s : Store) (now : Nat) (keyType : String) : Option Nat :=
  match s.keyTypes.find? (fun t => t.name == keyType) with
  | some t => some (now + t.durationDays)
  | none => none

/-- The row the INSERT of `add_keys_to_db` writes for candidate `k`: the
given columns plus the table defaults. -/
def newKeyRow (now : Nat) (kt : String) (expiry : Option Nat)
    (customer product notes : Option String) (k : String) : KeyRow :=
  { keyValue := k, keyType := kt, createdAt := now,
    isActive := true, isBanned := false, activationDate := none,
    hwid := none, machineId := none, expiryDate := expiry,
    email := none, notes := notes, customerName := customer,
    productName := product }

/-- One iteration of the insert loop of `add_keys_to_db`: the INSERT succeeds
and appends a fresh row unless the UNIQUE constraint on `key_value` fires
(`sqlite3.IntegrityError`), in which case the key is skipped (`continue`). -/
def insertKey (now : Nat) (kt : String) (expiry : Option Nat)
    (customer product notes : Option String) (s : Store) (k : String) : Store :=
  if hasKey s k then s
  else
    { s with keys := s.keys ++ [newKeyRow now kt expiry customer product notes k] }

/-- `add_keys_to_db`: computes one shared expiry for the batch from the
catalog, then inserts every candidate, skipping duplicates; returns the new
store and the `True` the source returns on the non-exceptional path. -/
def add_keys_to_db (s : Store) (now : Nat) (keyList : List String) (kt : String)
    (customer product notes : Option String) : Store × Bool :=
  let expiry := calculate_expiry_date s now kt
  (keyList.foldl (insertKey now kt expiry customer product notes) s, true)

/-- Result of the `/api/keys/generate` handler `generate_keys`:
`validationError` models its 400 response, `success ks` the 200 response
listing the inserted candidate keys. -/
inductive GenResult where
  | validationError
  | success (keys : List String)
deriving Repr, DecidableEq

/-- The `generate_keys` handler body after JSON parsing: rejects
`count > 1000` with a 400 before generating anything; otherwise builds
`count` candidates (`range(count)` is empty for `count ≤ 0`) and bulk-inserts
them. `gen i` is the random key drawn at loop index `i`. -/
def generate_keys (s : Store) (now : Nat) (gen : Nat → String) (kt : String)
    (customer product notes : Option String) (count : Int) : Store × GenResult :=
  if 1000 < count then (s, GenResult.validationError)
  else
    let keyList := (List.range count.toNat).map gen
    ((add_keys_to_db s now keyList kt customer product notes).1,
     GenResult.success keyList)

/-- Result of `activate_key`; constructors correspond one-to-one to the four
returned dicts: messages Key not found / Key is banned /
Key already activated / Key activated successfully. -/
inductive ActivateResult where
  | keyNotFound
  | keyBanned
  | alreadyActivated
  | success
deriving Repr, DecidableEq

/-- `activate_key`: fetch the row; error out when missing, banned, or already
carrying an activation date; otherwise recompute the expiry from the catalog
and update the row in place. -/
def activate_key (s : Store) (now : Nat) (kv : String)
    (hw mi em : Option String) : Store × ActivateResult :=
  match findKey s kv with
  | none => (s, ActivateResult.keyNotFound)
  | some r =>
    if r.isBanned then (s, ActivateResult.keyBanned)
    else if r.activationDate.isSome then (s, ActivateResult.alreadyActivated)
    else
      let expiry := calculate_expiry_date s now r.keyType
      ({ s with
         keys := s.keys.map fun row =>
           if row.keyValue == kv then
             { row with
               isActive := true, activationDate := some now,
               hwid := hw, machineId := mi, email := em,
               expiryDate := expiry }
           else row },
       ActivateResult.success)

/-- `ban_key`: `UPDATE activation_keys SET is_banned = 1, is_active = 0 WHERE
key_value = ?`; returns `rowcount > 0`. -/
def ban_key (s : Store) (kv : String) : Store × Bool :=
  ({ s with
     keys := s.keys.map fun r =>
       if r.keyValue == kv then { r with isBanned := true, isActive := false }
       else r },
   hasKey s kv)

/-- `unban_key`: `UPDATE activation_keys SET is_banned = 0, is_active = 1
WHERE key_value = ?`; returns `rowcount > 0`. -/
def unban_key (s : Store) (kv : String) : Store × Bool :=
  ({ s with
     keys := s.keys.map fun r =>
       if r.keyValue == kv then { r with isBanned := false, isActive := true }
       else r },
   hasKey s kv)

/-- The JSON view `check_key_status` builds for a found key. -/
structure KeyView where
  key : String
  ktype : String
  is_active : Bool
  is_banned : Bool
  activation_date : Option Nat
  expiry_date : Option Nat
  hwid : Option String
  machine_id : Option String
  email : Option String
  customer_name : Option String
  product_name : Option String
  notes : Option String
  created_at : Nat
  is_valid : Bool
deriving Repr, DecidableEq

/-- `check_key_status`: fetch the row (error Key not found when absent) and
derive `is_valid = not banned and active and (expiry missing or in the
future)` at read time; nothing is written back. -/
def check_key_status (s : Store) (now : Nat) (kv : String) :
    Except String KeyView :=
  match findKey s kv with
  | none => Except.error "Key not found"
  | some r =>
    Except.ok
      { key := r.keyValue, ktype := r.keyType,
        is_active := r.isActive, is_banned := r.isBanned,
        activation_date := r.activationDate, expiry_date := r.expiryDate,
        hwid := r.hwid, machine_id := r.machineId, email := r.email,
        customer_name := r.customerName, product_name := r.productName,
        notes := r.notes, created_at := r.createdAt,
        is_valid :=
          !r.isBanned && r.isActive &&
            (match r.expiryDate with
             | none => true
             | some e => decide (now < e)) }

/-- `get_admin_by_api_key`: `SELECT ... FROM admin_users WHERE api_key = ?`,
first hit or none (a NULL `api_key` never equals a presented string). -/
def get_admin_by_api_key (s : Store) (apiKey : String) : Option AdminRow :=
  s.admins.find? fun a => a.apiKey == some apiKey

/-- Outcome of a guard decorator: `unauthorized` is its 401 response,
`forbidden` its 403 response, `allowed` means the wrapped handler runs. -/
inductive GuardResult where
  | unauthorized
  | forbidden
  | allowed
deriving Repr, DecidableEq

/-- `admin_required`: a missing or empty `X-API-KEY` header is falsy and gets
401, an unresolvable key gets 401, anything resolvable passes. -/
def admin_required (s : Store) (header : Option String) : GuardResult :=
  match header with
  | none => GuardResult.unauthorized
  | some k =>
    if k == "" then GuardResult.unauthorized
    else
      match get_admin_by_api_key s k with
      | none => GuardResult.unauthorized
      | some _ => GuardResult.allowed

/-- `superadmin_required`: a missing or empty header gets 401; a present one
that does not resolve, or resolves to a non-superadmin, gets the 403
Superadmin privileges required (the source tests
`not admin_info or not admin_info[1]` in one branch). -/
def superadmin_required (s : Store) (header : Option String) : GuardResult :=
  match header with
  | none => GuardResult.unauthorized
  | some k =>
    if k == "" then GuardResult.unauthorized
    else
      match get_admin_by_api_key s k with
      | none => GuardResult.forbidden
      | some a =>
        if a.isSuperadmin then GuardResult.allowed else GuardResult.forbidden

/-- The seeded `key_types` catalog inserted by `init_db`. -/
def defaultKeyTypes : List KeyTypeRow :=
  [{ name := "7day", durationDays := 7, description := some "7 Day License",
     price := some 999, isAvailable := true },
   { name := "month", durationDays := 30, description := some "1 Month License",
     price := some 2999, isAvailable := true },
   { name := "6month", durationDays := 180, description := some "6 Month License",
     price := some 14999, isAvailable := true },
   { name := "1year", durationDays := 365, description := some "1 Year License",
     price := some 24999, isAvailable := true },
   { name := "lifetime", durationDays := 36500, description := some "Lifetime License",
     price := some 49999, isAvailable := true }]

/-- The store right after `init_db` on an empty database: no keys, the seeded
catalog, and the bootstrap superadmin with the fixed demo API key (its
password digest is opaque here). -/
def initStore : Store :=
  { keys := [],
    keyTypes := defaultKeyTypes,
    admins :=
      [{ username := "admin", passwordHash := "pbkdf2:sha256(admin)",
         apiKey := some "bc3eabae-7ee2-40fa-b19b-53f1bfd3c8ad",
         isSuperadmin := true, createdAt := 0, lastLogin := none }] }

/-- A state-changing call of the modelled surface; the payload fields are the
request parameters of the corresponding handler. -/
inductive Op where
  | createBatch (now : Nat) (gen : Nat → String) (keyType : String)
      (customer product notes : Option String) (count : Int)
  | activate (now : Nat) (keyValue : String) (hw mi em : Option String)
  | ban (keyValue : String)
  | unban (keyValue : String)

/-- The store a single operation leaves behind. -/
def applyOp (s : Store) : Op → Store
  | Op.createBatch now gen kt c p n count =>
      (generate_keys s now gen kt c p n count).1
  | Op.activate now kv hw mi em => (activate_key s now kv hw mi em).1
  | Op.ban kv => (ban_key s kv).1
  | Op.unban kv => (unban_key s kv).1

/-- The store after a whole call sequence, oldest call first. -/
def applyOps (s : Store) (ops : List Op) : Store :=
  ops.foldl applyOp s

/-- The store invariant every modelled operation maintains: key values are
pairwise distinct (the UNIQUE constraint) and banned rows are inactive. -/
def GoodStore (s : Store) : Prop :=
  (s.keys.map KeyRow.keyValue).Nodup ∧
  ∀ r ∈ s.keys, r.isBanned = true → r.isActive = false

/-- A sample store used to instantiate the theorems on concrete data: the
initial store plus one freshly generated month key. -/
def sampleStore : Store :=
  (add_keys_to_db initStore 0 ["ECP-AAAA-BBBB-CCCC"] "month" none none none).1

/-- The row `sampleStore` holds for the sample key. -/
def sampleRow : KeyRow :=
  { keyValue := "ECP-AAAA-BBBB-CCCC", keyType := "month", createdAt := 0,
    isActive := true, isBanned := false, activationDate := none,
    hwid := none, machineId := none, expiryDate := some 30,
    email := none, notes := none, customerName := none, productName := none }

/-! ### Helper lemmas shared by several developments below -/

theorem find?_map_update (keys : List KeyRow) (kv : String) (f : KeyRow → KeyRow)
    (hf : ∀ r, (f r).keyValue = r.keyValue) :
    (keys.map fun r => if r.keyValue == kv then f r else r).find?
        (fun r => r.keyValue == kv) =
      (keys.find? fun r => r.keyValue == kv).map
        (fun r => if r.keyValue == kv then f r else r) := by
  rw [List.find?_map]
  have hp : ((fun r => r.keyValue == kv) ∘ fun r : KeyRow =>
      if r.keyValue == kv then f r else r) = fun r : KeyRow => r.keyValue == kv := by
    funext r
    by_cases h : (r.keyValue == kv) = true <;> simp [Function.comp, h, hf r]
  rw [hp]

theorem mem_map_update (keys : List KeyRow) (kv : String) (f : KeyRow → KeyRow)
    (r : KeyRow) (hr : r ∈ keys) (hne : ¬ r.keyValue = kv) :
    r ∈ keys.map fun a => if a.keyValue == kv then f a else a := by
  have : r = if r.keyValue == kv then f r else r := by simp [hne]
  rw [this]
  exact List.mem_map_of_mem _ hr

/-- The row `activate_key` writes on its success path. -/
def activatedRow (now : Nat) (hw mi em : Option String) (expiry : Option Nat)
    (r : KeyRow) : KeyRow :=
  { r with
    isActive := true, activationDate := some now,
    hwid := hw, machineId := mi, email := em, expiryDate := expiry }

theorem activate_key_success_eq (s : Store) (now : Nat) (kv : String)
    (hw mi em : Option String) (r : KeyRow) (hr : findKey s kv = some r)
    (hb : r.isBanned = false) (ha : r.activationDate = none) :
    activate_key s now kv hw mi em =
      ({ s with
         keys := s.keys.map fun row =>
           if row.keyValue == kv then
             activatedRow now hw mi em (calculate_expiry_date s now r.keyType) row
           else row },
       ActivateResult.success) := by
  unfold activate_key
  rw [hr]
  simp [hb, ha, activatedRow]

theorem findKey_after_activate (s : Store) (now : Nat) (kv : String)
    (hw mi em : Option String) (r : KeyRow) (hr : findKey s kv = some r)
    (hb : r.isBanned = false) (ha : r.activationDate = none) :
    findKey (activate_key s now kv hw mi em).1 kv =
      some (activatedRow now hw mi em (calculate_expiry_date s now r.keyType) r) := by
  have heq1 : (activate_key s now kv hw mi em).1 =
      { s with
        keys := s.keys.map fun row =>
          if row.keyValue == kv then
            activatedRow now hw mi em (calculate_expiry_date s now r.keyType) row
          else row } := by
    rw [activate_key_success_eq s now kv hw mi em r hr hb ha]
  rw [heq1]
  unfold findKey at hr ⊢
  have hkv : (r.keyValue == kv) = true := by
    have h2 := List.find?_some hr
    simpa using h2
  dsimp only
  rw [find?_map_update s.keys kv
      (activatedRow now hw mi em (calculate_expiry_date s now r.keyType))
      (fun a => rfl), hr]
  have hkv2 : r.keyValue = kv := by simpa using hkv
  simp [hkv2]

/-! ### Claim theorems -/

/-- C1: `activate_key` fails with `keyNotFound` when no row matches the key
value, fails with `keyBanned` when the matched row is banned, fails with
`alreadyActivated` when the matched row already carries an activation date,
and otherwise succeeds, storing `isActive = true`, `activationDate = now` and
the supplied hwid, machine id and email on that row; afterwards any further
activation of the same key value fails. -/
theorem activate_key_spec (s : Store) (now : Nat) (kv : String)
    (hw mi em : Option String) :
    (findKey s kv = none →
      activate_key s now kv hw mi em = (s, ActivateResult.keyNotFound)) ∧
    (∀ r, findKey s kv = some r →
      (r.isBanned = true →
        activate_key s now kv hw mi em = (s, ActivateResult.keyBanned)) ∧
      (r.isBanned = false → r.activationDate.isSome = true →
        activate_key s now kv hw mi em = (s, ActivateResult.alreadyActivated)) ∧
      (r.isBanned = false → r.activationDate = none →
        (activate_key s now kv hw mi em).2 = ActivateResult.success ∧
        findKey (activate_key s now kv hw mi em).1 kv =
          some { r with
                 isActive := true, activationDate := some now,
                 hwid := hw, machineId := mi, email := em,
                 expiryDate := calculate_expiry_date s now r.keyType } ∧
        ∀ now2 hw2 mi2 em2,
          activate_key (activate_key s now kv hw mi em).1 now2 kv hw2 mi2 em2 =
            ((activate_key s now kv hw mi em).1,
             ActivateResult.alreadyActivated))) := by
  constructor
  · intro h
    unfold activate_key
    rw [h]
  · intro r hr
    refine ⟨?_, ?_, ?_⟩
    · intro hb
      unfold activate_key
      rw [hr]
      simp [hb]
    · intro hb hsome
      unfold activate_key
      rw [hr]
      simp [hb, hsome]
    · intro hb ha
      have hs := activate_key_success_eq s now kv hw mi em r hr hb ha
      have hfa := findKey_after_activate s now kv hw mi em r hr hb ha
      refine ⟨by rw [hs], hfa, ?_⟩
      intro now2 hw2 mi2 em2
      revert hfa
      generalize (activate_key s now kv hw mi em).1 = s2
      intro hfa
      unfold activate_key
      rw [hfa]
      simp [activatedRow, hb]

/-- C1 witness: on the sample store the first activation of the sample key
succeeds and a second activation fails with `alreadyActivated`. -/
theorem activate_key_spec_witness :
    (activate_key sampleStore 5 "ECP-AAAA-BBBB-CCCC"
        (some "HW1") (some "M1") (some "a@b.c")).2 = ActivateResult.success ∧
    (activate_key
        (activate_key sampleStore 5 "ECP-AAAA-BBBB-CCCC"
          (some "HW1") (some "M1") (some "a@b.c")).1
        9 "ECP-AAAA-BBBB-CCCC" none none none).2 =
      ActivateResult.alreadyActivated := by
  have h := ((activate_key_spec sampleStore 5 "ECP-AAAA-BBBB-CCCC"
      (some "HW1") (some "M1") (some "a@b.c")).2 sampleRow
      (by decide)).2.2 (by decide) (by decide)
  exact ⟨h.1, by rw [h.2.2 9 none none none]⟩

/-- C9: a successful activation stores an expiry equal to the activation
instant plus the duration the catalog currently records for the type of the key,
and stores no expiry when the type is absent from the catalog; it also stamps
the activation date with the activation instant. -/
theorem activate_key_recomputes_expiry (s : Store) (now : Nat) (kv : String)
    (hw mi em : Option String) (r : KeyRow) (hr : findKey s kv = some r)
    (hb : r.isBanned = false) (ha : r.activationDate = none) :
    (activate_key s now kv hw mi em).2 = ActivateResult.success ∧
    ∀ v, findKey (activate_key s now kv hw mi em).1 kv = some v →
      v.activationDate = some now ∧
      (∀ t, s.keyTypes.find? (fun u => u.name == r.keyType) = some t →
        v.expiryDate = some (now + t.durationDays)) ∧
      (s.keyTypes.find? (fun u => u.name == r.keyType) = none →
        v.expiryDate = none) := by
  have hs := activate_key_success_eq s now kv hw mi em r hr hb ha
  have hfa := findKey_after_activate s now kv hw mi em r hr hb ha
  refine ⟨by rw [hs], ?_⟩
  intro v hv
  rw [hfa] at hv
  cases hv
  refine ⟨rfl, ?_, ?_⟩
  · intro t ht
    simp [activatedRow, calculate_expiry_date, ht]
  · intro ht
    simp [activatedRow, calculate_expiry_date, ht]

/-- C9 witness: activating the sample month key at instant 5 stores the
expiry 5 + 30 from the catalog. -/
theorem activate_key_recomputes_expiry_witness :
    (activate_key sampleStore 5 "ECP-AAAA-BBBB-CCCC" none none none).2 =
      ActivateResult.success ∧
    (findKey (activate_key sampleStore 5 "ECP-AAAA-BBBB-CCCC" none none none).1
        "ECP-AAAA-BBBB-CCCC").map KeyRow.expiryDate = some (some 35) := by
  have h := activate_key_recomputes_expiry sampleStore 5 "ECP-AAAA-BBBB-CCCC"
    none none none sampleRow (by decide) (by decide) (by decide)
  refine ⟨h.1, ?_⟩
  cases hf : findKey (activate_key sampleStore 5 "ECP-AAAA-BBBB-CCCC"
      none none none).1 "ECP-AAAA-BBBB-CCCC" with
  | none => exact absurd hf (by decide)
  | some v =>
    have h2 := (h.2 v hf).2.1
      { name := "month", durationDays := 30,
        description := some "1 Month License", price := some 2999,
        isAvailable := true } (by decide)
    simp [h2]

/-- C10: whenever `activate_key` fails, it writes nothing: the store it
returns is exactly the store it was given. -/
theorem activate_key_atomic_on_failure (s : Store) (now : Nat) (kv : String)
    (hw mi em : Option String)
    (hfail : (activate_key s now kv hw mi em).2 ≠ ActivateResult.success) :
    (activate_key s now kv hw mi em).1 = s := by
  unfold activate_key at hfail ⊢
  cases h : findKey s kv with
  | none => rfl
  | some r =>
    rw [h] at hfail
    by_cases hb : r.isBanned = true
    · simp [hb]
    · have hb2 : r.isBanned = false := by simpa using hb
      by_cases ha : r.activationDate.isSome = true
      · simp [hb2, ha]
      · have ha2 : r.activationDate.isSome = false := by simpa using ha
        simp [hb2, ha2] at hfail

/-- C10 witness: activating an unknown key on the sample store fails and
leaves the store untouched. -/
theorem activate_key_atomic_on_failure_witness :
    (activate_key sampleStore 5 "NO-SUCH-KEY" none none none).1 = sampleStore :=
  activate_key_atomic_on_failure sampleStore 5 "NO-SUCH-KEY" none none none
    (by decide)

/-- C4: `check_key_status` reports the derived `is_valid` flag true exactly
when the stored row is not banned, is active, and has either no expiry or an
expiry strictly later than the current instant; the flag is derived at read
time (the operation is a pure read: `KeyRow` has no validity column and no
store is returned). -/
theorem check_key_status_spec (s : Store) (now : Nat) (kv : String) :
    (findKey s kv = none →
      check_key_status s now kv = Except.error "Key not found") ∧
    (∀ r, findKey s kv = some r →
      ∃ v, check_key_status s now kv = Except.ok v ∧
        (v.is_valid = true ↔
          (r.isBanned = false ∧ r.isActive = true ∧
            (r.expiryDate = none ∨ ∃ e, r.expiryDate = some e ∧ now < e)))) := by
  constructor
  · intro h
    unfold check_key_status
    rw [h]
  · intro r hr
    unfold check_key_status
    rw [hr]
    refine ⟨_, rfl, ?_⟩
    cases hre : r.expiryDate with
    | none => simp [hre]
    | some e => simp [hre, and_assoc]

/-- C4 witness: on the sample store at instant 10, before the expiry 30, the
status view of the sample key carries `is_valid = true`. -/
theorem check_key_status_spec_witness :
    ∃ v, check_key_status sampleStore 10 "ECP-AAAA-BBBB-CCCC" = Except.ok v ∧
      v.is_valid = true := by
  obtain ⟨v, hv, hiff⟩ :=
    (check_key_status_spec sampleStore 10 "ECP-AAAA-BBBB-CCCC").2 sampleRow
      (by decide)
  exact ⟨v, hv, hiff.mpr ⟨rfl, rfl, Or.inr ⟨30, rfl, by decide⟩⟩⟩

/-- C6: `ban_key` stamps `isBanned = true, isActive = false` on the rows
matching the key value and `unban_key` stamps `isBanned = false,
isActive = true` on them, unconditionally; both leave other rows untouched
and return true exactly when some row matched. -/
theorem ban_unban_spec (s : Store) (kv : String) :
    ((ban_key s kv).2 = true ↔ ∃ r ∈ s.keys, r.keyValue = kv) ∧
    ((unban_key s kv).2 = true ↔ ∃ r ∈ s.keys, r.keyValue = kv) ∧
    (∀ r ∈ s.keys, r.keyValue = kv →
      { r with isBanned := true, isActive := false } ∈ (ban_key s kv).1.keys ∧
      { r with isBanned := false, isActive := true } ∈ (unban_key s kv).1.keys) ∧
    (∀ r ∈ s.keys, ¬ r.keyValue = kv →
      r ∈ (ban_key s kv).1.keys ∧ r ∈ (unban_key s kv).1.keys) ∧
    (∀ r ∈ (ban_key s kv).1.keys, r.keyValue = kv →
      r.isBanned = true ∧ r.isActive = false) ∧
    (∀ r ∈ (unban_key s kv).1.keys, r.keyValue = kv →
      r.isBanned = false ∧ r.isActive = true) := by
  refine ⟨?_, ?_, ?_, ?_, ?_, ?_⟩
  · simp [ban_key, hasKey]
  · simp [unban_key, hasKey]
  · intro r hr he
    constructor
    · have h2 := List.mem_map_of_mem
        (fun a : KeyRow =>
          if a.keyValue == kv then { a with isBanned := true, isActive := false }
          else a) hr
      simpa [ban_key, he] using h2
    · have h2 := List.mem_map_of_mem
        (fun a : KeyRow =>
          if a.keyValue == kv then { a with isBanned := false, isActive := true }
          else a) hr
      simpa [unban_key, he] using h2
  · intro r hr hne
    exact ⟨mem_map_update s.keys kv _ r hr hne, mem_map_update s.keys kv _ r hr hne⟩
  · intro r hr he
    unfold ban_key at hr
    rcases List.mem_map.mp hr with ⟨a, _, rfl⟩
    by_cases h : (a.keyValue == kv) = true
    · simp [h]
    · rw [if_neg h] at he ⊢
      exact absurd (by simp [he]) h
  · intro r hr he
    unfold unban_key at hr
    rcases List.mem_map.mp hr with ⟨a, _, rfl⟩
    by_cases h : (a.keyValue == kv) = true
    · simp [h]
    · rw [if_neg h] at he ⊢
      exact absurd (by simp [he]) h

/-- C6 witness: on the sample store, banning the sample key reports a match
and its row ends up banned and inactive. -/
theorem ban_unban_spec_witness :
    (ban_key sampleStore "ECP-AAAA-BBBB-CCCC").2 = true ∧
    { sampleRow with isBanned := true, isActive := false } ∈
      (ban_key sampleStore "ECP-AAAA-BBBB-CCCC").1.keys := by
  have h := ban_unban_spec sampleStore "ECP-AAAA-BBBB-CCCC"
  refine ⟨h.1.mpr ⟨sampleRow, by decide, rfl⟩, ?_⟩
  exact (h.2.2.1 sampleRow (by decide) rfl).1

/-! ### Lemmas on the bulk-insert loop -/

theorem not_mem_of_hasKey_false (s : Store) (k : String)
    (hk : hasKey s k = false) : ∀ r ∈ s.keys, ¬ r.keyValue = k := by
  unfold hasKey at hk
  intro r hr he
  have h2 := List.any_eq_false.mp hk r hr
  simp [he] at h2

theorem mem_insertKey_of_mem (now : Nat) (kt : String) (e : Option Nat)
    (c p n : Option String) (s : Store) (k : String) (r : KeyRow)
    (hr : r ∈ s.keys) : r ∈ (insertKey now kt e c p n s k).keys := by
  unfold insertKey
  by_cases hk : hasKey s k = true
  · rw [if_pos hk]; exact hr
  · rw [if_neg hk]; exact List.mem_append_left _ hr

theorem mem_of_mem_insertKey (now : Nat) (kt : String) (e : Option Nat)
    (c p n : Option String) (s : Store) (k : String) (r : KeyRow)
    (hr : r ∈ (insertKey now kt e c p n s k).keys) :
    r ∈ s.keys ∨ r = newKeyRow now kt e c p n k := by
  unfold insertKey at hr
  by_cases hk : hasKey s k = true
  · rw [if_pos hk] at hr; exact Or.inl hr
  · rw [if_neg hk] at hr
    rcases List.mem_append.mp hr with h | h
    · exact Or.inl h
    · exact Or.inr (by simpa using h)

theorem hasKey_insertKey_self (now : Nat) (kt : String) (e : Option Nat)
    (c p n : Option String) (s : Store) (k : String) :
    hasKey (insertKey now kt e c p n s k) k = true := by
  unfold insertKey
  by_cases hk : hasKey s k = true
  · rw [if_pos hk]; exact hk
  · rw [if_neg hk]
    unfold hasKey
    simp [newKeyRow]

theorem hasKey_insertKey_mono (now : Nat) (kt : String) (e : Option Nat)
    (c p n : Option String) (s : Store) (k v : String)
    (hv : hasKey s v = true) : hasKey (insertKey now kt e c p n s k) v = true := by
  unfold insertKey
  by_cases hk : hasKey s k = true
  · rw [if_pos hk]; exact hv
  · rw [if_neg hk]
    unfold hasKey at hv ⊢
    simp only [List.any_append, hv, Bool.true_or]

theorem hasKey_insertKey_of_ne (now : Nat) (kt : String) (e : Option Nat)
    (c p n : Option String) (s : Store) (k v : String)
    (hne : ¬ v = k) (hv : hasKey s v = false) :
    hasKey (insertKey now kt e c p n s k) v = false := by
  unfold insertKey
  by_cases hk : hasKey s k = true
  · rw [if_pos hk]; exact hv
  · rw [if_neg hk]
    unfold hasKey at hv ⊢
    simp only [List.any_append, hv, Bool.false_or, List.any_cons, List.any_nil,
      Bool.or_false, newKeyRow]
    exact beq_eq_false_iff_ne.mpr fun h2 => hne h2.symm

theorem mem_foldl_insertKey_of_mem (now : Nat) (kt : String) (e : Option Nat)
    (c p n : Option String) (cands : List String) :
    ∀ s : Store, ∀ r ∈ s.keys,
      r ∈ (cands.foldl (insertKey now kt e c p n) s).keys := by
  induction cands with
  | nil => intro s r hr; exact hr
  | cons k ks ih =>
    intro s r hr
    simp only [List.foldl_cons]
    exact ih _ r (mem_insertKey_of_mem now kt e c p n s k r hr)

theorem mem_of_mem_foldl_insertKey (now : Nat) (kt : String) (e : Option Nat)
    (c p n : Option String) (cands : List String) :
    ∀ s : Store, ∀ r ∈ (cands.foldl (insertKey now kt e c p n) s).keys,
      r ∈ s.keys ∨ ∃ k ∈ cands, r = newKeyRow now kt e c p n k := by
  induction cands with
  | nil => intro s r hr; exact Or.inl hr
  | cons k ks ih =>
    intro s r hr
    simp only [List.foldl_cons] at hr
    rcases ih _ r hr with h | ⟨k2, hk2, he⟩
    · rcases mem_of_mem_insertKey now kt e c p n s k r h with h2 | h2
      · exact Or.inl h2
      · exact Or.inr ⟨k, List.mem_cons_self k ks, h2⟩
    · exact Or.inr ⟨k2, List.mem_cons_of_mem k hk2, he⟩

theorem hasKey_foldl_insertKey_mono (now : Nat) (kt : String) (e : Option Nat)
    (c p n : Option String) (cands : List String) :
    ∀ s : Store, ∀ v : String, hasKey s v = true →
      hasKey (cands.foldl (insertKey now kt e c p n) s) v = true := by
  induction cands with
  | nil => intro s v hv; exact hv
  | cons k ks ih =>
    intro s v hv
    simp only [List.foldl_cons]
    exact ih _ v (hasKey_insertKey_mono now kt e c p n s k v hv)

theorem hasKey_foldl_insertKey_of_mem (now : Nat) (kt : String) (e : Option Nat)
    (c p n : Option String) (cands : List String) (k : String) (hk : k ∈ cands) :
    ∀ s : Store, hasKey (cands.foldl (insertKey now kt e c p n) s) k = true := by
  induction cands with
  | nil => cases hk
  | cons k2 ks ih =>
    intro s
    simp only [List.foldl_cons]
    rcases List.mem_cons.mp hk with rfl | h
    · exact hasKey_foldl_insertKey_mono now kt e c p n ks _ k
        (hasKey_insertKey_self now kt e c p n s k)
    · exact ih h _

theorem length_foldl_insertKey_fresh (now : Nat) (kt : String) (e : Option Nat)
    (c p n : Option String) (cands : List String) :
    ∀ s : Store, cands.Nodup → (∀ k ∈ cands, hasKey s k = false) →
      (cands.foldl (insertKey now kt e c p n) s).keys.length =
        s.keys.length + cands.length := by
  induction cands with
  | nil => intro s _ _; simp
  | cons k ks ih =>
    intro s hnd hfresh
    simp only [List.foldl_cons]
    have hk : hasKey s k = false := hfresh k (List.mem_cons_self k ks)
    have hlen : (insertKey now kt e c p n s k).keys.length = s.keys.length + 1 := by
      unfold insertKey
      rw [if_neg (by simp [hk])]
      simp
    have hfresh2 : ∀ k2 ∈ ks, hasKey (insertKey now kt e c p n s k) k2 = false := by
      intro k2 hk2
      refine hasKey_insertKey_of_ne now kt e c p n s k k2 ?_
        (hfresh k2 (List.mem_cons_of_mem k hk2))
      intro he
      rw [he] at hk2
      exact (List.nodup_cons.mp hnd).1 hk2
    rw [ih _ (List.nodup_cons.mp hnd).2 hfresh2, hlen]
    simp only [List.length_cons]
    omega

/-- C5: a batch generation whose key type is absent from the catalog is not
blocked: the computed batch expiry is null, the bulk insert still reports
success, and every row it adds carries a null `expiryDate`. -/
theorem add_keys_missing_type_spec (s : Store) (now : Nat) (cands : List String)
    (kt : String) (c p n : Option String)
    (hmiss : ∀ t ∈ s.keyTypes, ¬ t.name = kt) :
    calculate_expiry_date s now kt = none ∧
    (add_keys_to_db s now cands kt c p n).2 = true ∧
    ∀ r ∈ (add_keys_to_db s now cands kt c p n).1.keys,
      r ∈ s.keys ∨ r.expiryDate = none := by
  have hfind : s.keyTypes.find? (fun t => t.name == kt) = none :=
    List.find?_eq_none.mpr fun t ht => by simp [hmiss t ht]
  have hnone : calculate_expiry_date s now kt = none := by
    unfold calculate_expiry_date
    rw [hfind]
  refine ⟨hnone, rfl, ?_⟩
  intro r hr
  simp only [add_keys_to_db, hnone] at hr
  rcases mem_of_mem_foldl_insertKey now kt none c p n cands s r hr with h | ⟨k, _, he⟩
  · exact Or.inl h
  · right
    rw [he]
    rfl

/-- C5 witness: generating a key of the unknown type gold on the initial
store yields a null batch expiry and only rows with a null stored expiry. -/
theorem add_keys_missing_type_spec_witness :
    calculate_expiry_date initStore 0 "gold" = none ∧
    ∀ r ∈ (add_keys_to_db initStore 0 ["GLD-0001"] "gold" none none none).1.keys,
      r ∈ initStore.keys ∨ r.expiryDate = none := by
  have h := add_keys_missing_type_spec initStore 0 ["GLD-0001"] "gold"
    none none none (by decide)
  exact ⟨h.1, h.2.2⟩

/-- C7: `add_keys_to_db` never errors on a duplicate: it always returns true,
keeps every pre-existing row, ends with every candidate value present, and
when the candidates are pairwise distinct and none collides with a stored
value it inserts exactly one row per candidate. -/
theorem add_keys_to_db_spec (s : Store) (now : Nat) (cands : List String)
    (kt : String) (c p n : Option String) :
    (add_keys_to_db s now cands kt c p n).2 = true ∧
    (∀ r ∈ s.keys, r ∈ (add_keys_to_db s now cands kt c p n).1.keys) ∧
    (∀ k ∈ cands, hasKey (add_keys_to_db s now cands kt c p n).1 k = true) ∧
    (cands.Nodup → (∀ k ∈ cands, hasKey s k = false) →
      (add_keys_to_db s now cands kt c p n).1.keys.length =
        s.keys.length + cands.length) := by
  refine ⟨rfl, ?_, ?_, ?_⟩
  · intro r hr
    exact mem_foldl_insertKey_of_mem now kt (calculate_expiry_date s now kt)
      c p n cands s r hr
  · intro k hk
    exact hasKey_foldl_insertKey_of_mem now kt (calculate_expiry_date s now kt)
      c p n cands k hk s
  · intro hnd hfresh
    exact length_foldl_insertKey_fresh now kt (calculate_expiry_date s now kt)
      c p n cands s hnd hfresh

/-- C7 witness: inserting two distinct fresh candidates into the initial
store yields exactly two rows. -/
theorem add_keys_to_db_spec_witness :
    (add_keys_to_db initStore 0 ["ECP-0001-AAAA-BBBB", "ECP-0002-AAAA-BBBB"]
        "month" none none none).1.keys.length = 2 := by
  have h := (add_keys_to_db_spec initStore 0
      ["ECP-0001-AAAA-BBBB", "ECP-0002-AAAA-BBBB"] "month" none none none).2.2.2
      (by decide) (by decide)
  exact h

/-- C3 counterexample: a request for zero keys is NOT rejected: the handler
returns the success response with an empty key list and inserts nothing,
because the source checks only the upper bound `count > 1000`; the claimed
ValidationError for `count = 0` therefore does not occur. -/
theorem generate_keys_zero_count_not_rejected :
    (generate_keys initStore 0 (fun _ => "ECP-AAAA-BBBB-CCCC") "month"
        none none none 0).2 = GenResult.success [] ∧
    (generate_keys initStore 0 (fun _ => "ECP-AAAA-BBBB-CCCC") "month"
        none none none 0).1 = initStore ∧
    GenResult.success ([] : List String) ≠ GenResult.validationError := by
  refine ⟨by decide, by decide, by decide⟩

/-- C3 amended: `generate_keys` fails with a validation error, inserting no
rows, exactly for `count > 1000`; a non-positive count is accepted and
succeeds while inserting no rows (`range(count)` is empty). -/
theorem generate_keys_bounds (s : Store) (now : Nat) (gen : Nat → String)
    (kt : String) (c p n : Option String) (count : Int) :
    (1000 < count →
      generate_keys s now gen kt c p n count = (s, GenResult.validationError)) ∧
    (count ≤ 0 →
      (generate_keys s now gen kt c p n count).1 = s ∧
      (generate_keys s now gen kt c p n count).2 =
        GenResult.success ([] : List String)) := by
  constructor
  · intro h
    unfold generate_keys
    rw [if_pos h]
  · intro h
    have h2 : ¬ 1000 < count := by omega
    have h3 : count.toNat = 0 := Int.toNat_of_nonpos h
    unfold generate_keys
    rw [if_neg h2]
    constructor
    · simp [h3, add_keys_to_db]
    · simp [h3]

/-- C3 amended witness: a request for 1001 keys is rejected with the
validation error and leaves the initial store unchanged. -/
theorem generate_keys_bounds_witness :
    generate_keys initStore 0 (fun _ => "ECP-AAAA-BBBB-CCCC") "month"
        none none none 1001 = (initStore, GenResult.validationError) :=
  (generate_keys_bounds initStore 0 (fun _ => "ECP-AAAA-BBBB-CCCC") "month"
      none none none 1001).1 (by decide)

/-- C8 counterexample: a presented API key that resolves to no admin makes
the superadmin guard answer its 403 Forbidden response, not the claimed 401
Unauthorized one (only a missing or empty header gets 401 there). -/
theorem superadmin_unresolvable_gets_forbidden :
    get_admin_by_api_key initStore "not-a-stored-key" = none ∧
    superadmin_required initStore (some "not-a-stored-key") =
      GuardResult.forbidden ∧
    GuardResult.forbidden ≠ GuardResult.unauthorized := by
  refine ⟨by decide, by decide, by decide⟩

/-- C8 amended: the admin guard answers Unauthorized for a missing, empty or
unresolvable credential and lets any resolvable one through; the superadmin
guard answers Unauthorized only for a missing or empty credential, and
Forbidden both when the presented key resolves to no admin and when it
resolves to an admin without the superadmin flag. -/
theorem guards_spec (s : Store) (header : Option String) :
    ((header = none ∨ header = some "") →
      admin_required s header = GuardResult.unauthorized ∧
      superadmin_required s header = GuardResult.unauthorized) ∧
    (∀ k, header = some k → ¬ k = "" → get_admin_by_api_key s k = none →
      admin_required s header = GuardResult.unauthorized ∧
      superadmin_required s header = GuardResult.forbidden) ∧
    (∀ k a, header = some k → ¬ k = "" → get_admin_by_api_key s k = some a →
      admin_required s header = GuardResult.allowed ∧
      (a.isSuperadmin = false →
        superadmin_required s header = GuardResult.forbidden) ∧
      (a.isSuperadmin = true →
        superadmin_required s header = GuardResult.allowed)) := by
  refine ⟨?_, ?_, ?_⟩
  · rintro (rfl | rfl)
    · exact ⟨rfl, rfl⟩
    · exact ⟨rfl, rfl⟩
  · rintro k rfl hk hres
    unfold admin_required superadmin_required
    simp [hk, hres]
  · rintro k a rfl hk hres
    unfold admin_required superadmin_required
    refine ⟨by simp [hk, hres], ?_, ?_⟩
    · intro hsa
      simp [hk, hres, hsa]
    · intro hsa
      simp [hk, hres, hsa]

/-- C8 amended witness: the fixed API key of the bootstrap admin passes both
guards on the initial store. -/
theorem guards_spec_witness :
    admin_required initStore
        (some "bc3eabae-7ee2-40fa-b19b-53f1bfd3c8ad") = GuardResult.allowed ∧
    superadmin_required initStore
        (some "bc3eabae-7ee2-40fa-b19b-53f1bfd3c8ad") = GuardResult.allowed := by
  have h := (guards_spec initStore
      (some "bc3eabae-7ee2-40fa-b19b-53f1bfd3c8ad")).2.2
      "bc3eabae-7ee2-40fa-b19b-53f1bfd3c8ad"
      { username := "admin", passwordHash := "pbkdf2:sha256(admin)",
        apiKey := some "bc3eabae-7ee2-40fa-b19b-53f1bfd3c8ad",
        isSuperadmin := true, createdAt := 0, lastLogin := none }
      rfl (by decide) (by decide)
  exact ⟨h.1, h.2.2 rfl⟩

/-! ### Preservation of the store invariant -/

theorem map_keyValue_update (keys : List KeyRow) (kv : String) (f : KeyRow → KeyRow)
    (hf : ∀ r, (f r).keyValue = r.keyValue) :
    (keys.map fun r => if r.keyValue == kv then f r else r).map KeyRow.keyValue =
      keys.map KeyRow.keyValue := by
  rw [List.map_map]
  apply List.map_congr_left
  intro r _
  by_cases h : (r.keyValue == kv) = true <;> simp [Function.comp, h, hf r]

theorem goodStore_insertKey (now : Nat) (kt : String) (e : Option Nat)
    (c p n : Option String) (s : Store) (k : String) (hs : GoodStore s) :
    GoodStore (insertKey now kt e c p n s k) := by
  unfold insertKey
  by_cases hk : hasKey s k = true
  · rw [if_pos hk]; exact hs
  · rw [if_neg hk]
    obtain ⟨hnd, hban⟩ := hs
    have hk2 : hasKey s k = false := by simpa using hk
    constructor
    · dsimp only
      rw [List.map_append, List.nodup_append]
      refine ⟨hnd, by simp, ?_⟩
      intro v hv
      rcases List.mem_map.mp hv with ⟨r, hr, rfl⟩
      simp only [List.map_cons, List.map_nil, List.mem_singleton]
      show ¬ r.keyValue = (newKeyRow now kt e c p n k).keyValue
      exact not_mem_of_hasKey_false s k hk2 r hr
    · dsimp only
      intro r hr hb
      rcases List.mem_append.mp hr with h | h
      · exact hban r h hb
      · rw [List.mem_singleton.mp h] at hb
        simp [newKeyRow] at hb

theorem goodStore_foldl_insertKey (now : Nat) (kt : String) (e : Option Nat)
    (c p n : Option String) (cands : List String) :
    ∀ s : Store, GoodStore s →
      GoodStore (cands.foldl (insertKey now kt e c p n) s) := by
  induction cands with
  | nil => intro s hs; exact hs
  | cons k ks ih =>
    intro s hs
    simp only [List.foldl_cons]
    exact ih _ (goodStore_insertKey now kt e c p n s k hs)

theorem goodStore_ban (s : Store) (kv : String) (hs : GoodStore s) :
    GoodStore (ban_key s kv).1 := by
  obtain ⟨hnd, hban⟩ := hs
  unfold ban_key
  constructor
  · dsimp only
    rw [map_keyValue_update s.keys kv
      (fun r => { r with isBanned := true, isActive := false }) (fun r => rfl)]
    exact hnd
  · dsimp only
    intro r hr hb
    rcases List.mem_map.mp hr with ⟨a, ha, rfl⟩
    by_cases h : (a.keyValue == kv) = true
    · simp [h]
    · rw [if_neg h] at hb ⊢
      exact hban a ha hb

theorem goodStore_unban (s : Store) (kv : String) (hs : GoodStore s) :
    GoodStore (unban_key s kv).1 := by
  obtain ⟨hnd, hban⟩ := hs
  unfold unban_key
  constructor
  · dsimp only
    rw [map_keyValue_update s.keys kv
      (fun r => { r with isBanned := false, isActive := true }) (fun r => rfl)]
    exact hnd
  · dsimp only
    intro r hr hb
    rcases List.mem_map.mp hr with ⟨a, ha, rfl⟩
    by_cases h : (a.keyValue == kv) = true
    · simp [h] at hb
    · rw [if_neg h] at hb ⊢
      exact hban a ha hb

theorem goodStore_activate (s : Store) (now : Nat) (kv : String)
    (hw mi em : Option String) (hs : GoodStore s) :
    GoodStore (activate_key s now kv hw mi em).1 := by
  cases hfind : findKey s kv with
  | none =>
    have h1 : (activate_key s now kv hw mi em).1 = s := by
      unfold activate_key
      rw [hfind]
    rw [h1]; exact hs
  | some r =>
    by_cases hb : r.isBanned = true
    · have h1 : (activate_key s now kv hw mi em).1 = s := by
        unfold activate_key
        rw [hfind]
        simp [hb]
      rw [h1]; exact hs
    · have hb2 : r.isBanned = false := by simpa using hb
      by_cases ha : r.activationDate.isSome = true
      · have h1 : (activate_key s now kv hw mi em).1 = s := by
          unfold activate_key
          rw [hfind]
          simp [hb2, ha]
        rw [h1]; exact hs
      · have ha2 : r.activationDate = none := by
          cases hd : r.activationDate with
          | none => rfl
          | some d => rw [hd] at ha; simp at ha
        have h1 : (activate_key s now kv hw mi em).1 =
            { s with
              keys := s.keys.map fun row =>
                if row.keyValue == kv then
                  activatedRow now hw mi em
                    (calculate_expiry_date s now r.keyType) row
                else row } := by
          rw [activate_key_success_eq s now kv hw mi em r hfind hb2 ha2]
        rw [h1]
        obtain ⟨hnd, hban⟩ := hs
        have hrmem : r ∈ s.keys := by
          have := List.mem_of_find?_eq_some hfind
          exact this
        have hrkv : r.keyValue = kv := by
          have := List.find?_some hfind
          simpa using this
        constructor
        · dsimp only
          rw [map_keyValue_update s.keys kv
            (activatedRow now hw mi em (calculate_expiry_date s now r.keyType))
            (fun a => rfl)]
          exact hnd
        · dsimp only
          intro r2 hr2 hb3
          rcases List.mem_map.mp hr2 with ⟨a, ha3, rfl⟩
          by_cases h : (a.keyValue == kv) = true
          · exfalso
            have hakv : a.keyValue = kv := by simpa using h
            have haeq : a = r :=
              List.inj_on_of_nodup_map hnd ha3 hrmem (by rw [hakv, hrkv])
            rw [if_pos h] at hb3
            have : a.isBanned = true := by simpa [activatedRow] using hb3
            rw [haeq, hb2] at this
            cases this
          · rw [if_neg h] at hb3 ⊢
            exact hban a ha3 hb3

theorem goodStore_applyOp (s : Store) (op : Op) (hs : GoodStore s) :
    GoodStore (applyOp s op) := by
  cases op with
  | createBatch now gen kt c p n count =>
    unfold applyOp generate_keys
    dsimp only
    by_cases h : 1000 < count
    · rw [if_pos h]; exact hs
    · rw [if_neg h]
      exact goodStore_foldl_insertKey now kt _ c p n _ s hs
  | activate now kv hw mi em => exact goodStore_activate s now kv hw mi em hs
  | ban kv => exact goodStore_ban s kv hs
  | unban kv => exact goodStore_unban s kv hs

theorem goodStore_applyOps (ops : List Op) :
    ∀ s : Store, GoodStore s → GoodStore (applyOps s ops) := by
  induction ops with
  | nil => intro s hs; exact hs
  | cons op rest ih =>
    intro s hs
    unfold applyOps
    simp only [List.foldl_cons]
    exact ih _ (goodStore_applyOp s op hs)

theorem goodStore_initStore : GoodStore initStore :=
  ⟨by simp [initStore], by simp [initStore]⟩

/-- C2: in every store reachable from the freshly initialised store by any
sequence of batch creations, activations, bans and unbans, every banned key
row is inactive. -/
theorem reachable_banned_inactive (ops : List Op) (r : KeyRow)
    (hr : r ∈ (applyOps initStore ops).keys) (hb : r.isBanned = true) :
    r.isActive = false :=
  (goodStore_applyOps ops initStore goodStore_initStore).2 r hr hb

/-- C2 witness: after creating one key and banning it, the resulting banned
row is inactive. -/
theorem reachable_banned_inactive_witness :
    ({ keyValue := "ECP-AAAA-BBBB-CCCC", keyType := "month", createdAt := 0,
       isActive := false, isBanned := true, activationDate := none,
       hwid := none, machineId := none, expiryDate := some 30,
       email := none, notes := none, customerName := none,
       productName := none } : KeyRow).isActive = false :=
  reachable_banned_inactive
    [Op.createBatch 0 (fun _ => "ECP-AAAA-BBBB-CCCC") "month" none none none 1,
     Op.ban "ECP-AAAA-BBBB-CCCC"]
    { keyValue := "ECP-AAAA-BBBB-CCCC", keyType := "month", createdAt := 0,
      isActive := false, isBanned := true, activationDate := none,
      hwid := none, machineId := none, expiryDate := some 30,
      email := none, notes := none, customerName := none,
      productName := none }
    (by decide) (by decide)
